import Mathlib

/-!
Verification of `pystockml/models.py` against its specification.

The numeric table is modelled as `List (List ℚ)` (rows of fixed-width
feature vectors).  Numpy arrays become Lean lists; Python `range(a, b)`
becomes `pyRange a b`; slices become `pySlice`.  The statsmodels ARIMA
fit/forecast internals are abstracted as oracle functions supplied as
parameters, since their numerics are outside the scope of the spec.
-/

/-- Python `range(a, b)`: the list `[a, a+1, ..., b-1]`, empty when `b ≤ a`. -/
def pyRange (a b : Nat) : List Nat :=
  List.range' a (b - a)

/-- Python slice `l[a:b]` (clamping at the list length, like Python). -/
def pySlice {α : Type} (l : List α) (a b : Nat) : List α :=
  (l.drop a).take (b - a)

/-- Embeds `build_dataset(values, shift, price_column, lookback)` from
`pystockml/models.py` for a 2-D `values` table.

`price_column = none` models the Python sentinel `'all'` (the target is the
full row); `price_column = some c` models a column index, and the scalar
target is represented as a one-element row (the source reshapes `y` to
`(n, 1)` when `lookback == 0`; for `lookback > 0` it keeps a flat vector of
the same scalars).  Likewise each context sample is the list of its
`lookback+1` rows (the source flattens the single row when `lookback == 0`;
the entries are the same). -/
def build_dataset (values : List (List ℚ)) (shift : Nat) (price_column : Option Nat)
    (lookback : Nat) : List (List (List ℚ)) × List (List ℚ) :=
  let lines := values.length - shift
  let idxs := pyRange lookback (lines - shift)
  let x := idxs.map (fun i => pySlice values (i - lookback) (i + 1))
  let y := idxs.map (fun i =>
    match price_column with
    | none => values.getD (i + shift) []
    | some c => [(values.getD (i + shift) []).getD c 0])
  (x, y)

theorem pyRange_length (a b : Nat) : (pyRange a b).length = b - a := by
  simp [pyRange]

theorem build_dataset_fst_length (values : List (List ℚ)) (shift : Nat)
    (price_column : Option Nat) (lookback : Nat) :
    (build_dataset values shift price_column lookback).1.length
      = values.length - shift - shift - lookback := by
  simp [build_dataset, pyRange_length]

theorem build_dataset_snd_length (values : List (List ℚ)) (shift : Nat)
    (price_column : Option Nat) (lookback : Nat) :
    (build_dataset values shift price_column lookback).2.length
      = values.length - shift - shift - lookback := by
  simp [build_dataset, pyRange_length]

/-- C1: for every `shift ≥ 1`, `lookback ≥ 0` and table of length `L`,
`build_dataset` returns exactly `max 0 (L - 2*shift - lookback)` samples in
both its `X` and `y` outputs, and when that number is zero the result is the
empty pair rather than an error. -/
theorem build_dataset_sample_count (values : List (List ℚ)) (shift : Nat)
    (price_column : Option Nat) (lookback : Nat) (hshift : 1 ≤ shift) :
    (((build_dataset values shift price_column lookback).1.length : ℤ)
        = max 0 ((values.length : ℤ) - 2 * shift - lookback))
    ∧ (((build_dataset values shift price_column lookback).2.length : ℤ)
        = max 0 ((values.length : ℤ) - 2 * shift - lookback))
    ∧ (max 0 ((values.length : ℤ) - 2 * shift - lookback) = 0 →
        build_dataset values shift price_column lookback = ([], [])) := by
  have h1 := build_dataset_fst_length values shift price_column lookback
  have h2 := build_dataset_snd_length values shift price_column lookback
  refine ⟨?_, ?_, ?_⟩
  · rw [h1]; omega
  · rw [h2]; omega
  · intro hz
    have hx : (build_dataset values shift price_column lookback).1 = [] := by
      apply List.eq_nil_of_length_eq_zero
      omega
    have hy : (build_dataset values shift price_column lookback).2 = [] := by
      apply List.eq_nil_of_length_eq_zero
      omega
    exact Prod.ext hx hy

/-- Witness for C1 at a concrete input: a 5-row table with `shift = 1`,
`lookback = 0` produces `max 0 (5 - 2 - 0) = 3` samples. -/
theorem build_dataset_sample_count_witness :
    (((build_dataset [[(0:ℚ)], [1], [2], [3], [4]] 1 (some 0) 0).1.length : ℤ)
        = max 0 ((([[(0:ℚ)], [1], [2], [3], [4]] : List (List ℚ)).length : ℤ) - 2 * 1 - 0))
    ∧ (((build_dataset [[(0:ℚ)], [1], [2], [3], [4]] 1 (some 0) 0).2.length : ℤ)
        = max 0 ((([[(0:ℚ)], [1], [2], [3], [4]] : List (List ℚ)).length : ℤ) - 2 * 1 - 0)) :=
  ⟨(build_dataset_sample_count [[(0:ℚ)], [1], [2], [3], [4]] 1 (some 0) 0 (by decide)).1,
   (build_dataset_sample_count [[(0:ℚ)], [1], [2], [3], [4]] 1 (some 0) 0 (by decide)).2.1⟩

/-- C2 counterexample: on a 5-row table with `shift = 1`, `lookback = 0`,
the claimed iteration "from `lookback` up to `len(table) - shift - 1`
inclusive" would produce `(5 - 1 - 1) - 0 + 1 = 4` samples; the code
produces 3 (its last context-end position is `len(table) - 2*shift - 1`). -/
theorem build_dataset_last_position_counterexample :
    (build_dataset [[(0:ℚ)], [1], [2], [3], [4]] 1 (some 0) 0).1.length ≠ 4 := by
  decide

/-- C2 amended: `build_dataset` iterates context-end positions `i` from
`lookback` up to `len(table) - 2*shift - 1` inclusive (not
`len(table) - shift - 1`); for the `k`-th sample, `i = lookback + k`, the
context is rows `[i - lookback, i]` (`lookback + 1` rows) and the target is
row `i + shift` — the full row for the `'all'` sentinel
(`price_column = none`), otherwise its `price_column` component. -/
theorem build_dataset_positions_amended (values : List (List ℚ)) (shift : Nat)
    (price_column : Option Nat) (lookback : Nat) (hshift : 1 ≤ shift) :
    (build_dataset values shift price_column lookback).1.length
      = values.length - 2 * shift - lookback
    ∧ ∀ k, k < (build_dataset values shift price_column lookback).1.length →
        (build_dataset values shift price_column lookback).1.getD k []
          = pySlice values ((lookback + k) - lookback) ((lookback + k) + 1)
        ∧ ((build_dataset values shift price_column lookback).1.getD k []).length
            = lookback + 1
        ∧ (build_dataset values shift price_column lookback).2.getD k []
            = (match price_column with
               | none => values.getD ((lookback + k) + shift) []
               | some c => [(values.getD ((lookback + k) + shift) []).getD c 0]) := by
  have hlen := build_dataset_fst_length values shift price_column lookback
  constructor
  · rw [hlen]; omega
  · intro k hk
    rw [hlen] at hk
    have hm : k < values.length - shift - shift - lookback := by omega
    have hx : (build_dataset values shift price_column lookback).1.getD k []
        = pySlice values ((lookback + k) - lookback) ((lookback + k) + 1) := by
      simp only [build_dataset, pyRange]
      rw [List.getD_eq_getElem?_getD, List.getElem?_map, List.getElem?_range' _ _ hm]
      simp
    refine ⟨hx, ?_, ?_⟩
    · rw [hx]
      simp only [pySlice, List.length_take, List.length_drop]
      omega
    · simp only [build_dataset, pyRange]
      rw [List.getD_eq_getElem?_getD, List.getElem?_map, List.getElem?_range' _ _ hm]
      cases price_column <;> simp

/-- Witness for the amended C2 on a concrete 5-row table, exercising both
target modes: a column index and the full-row `'all'` sentinel. -/
theorem build_dataset_positions_amended_witness :
    (build_dataset [[(0:ℚ)], [1], [2], [3], [4]] 1 (some 0) 0).1.length = 5 - 2 * 1 - 0
    ∧ ((build_dataset [[(0:ℚ)], [1], [2], [3], [4]] 1 (some 0) 0).1.getD 2 []
        = pySlice [[(0:ℚ)], [1], [2], [3], [4]] ((0 + 2) - 0) ((0 + 2) + 1)
      ∧ ((build_dataset [[(0:ℚ)], [1], [2], [3], [4]] 1 (some 0) 0).1.getD 2 []).length = 0 + 1
      ∧ (build_dataset [[(0:ℚ)], [1], [2], [3], [4]] 1 (some 0) 0).2.getD 2 []
          = [(([[(0:ℚ)], [1], [2], [3], [4]] : List (List ℚ)).getD ((0 + 2) + 1) []).getD 0 0])
    ∧ (build_dataset [[(0:ℚ)], [1], [2], [3], [4]] 1 none 0).2.getD 2 []
        = ([[(0:ℚ)], [1], [2], [3], [4]] : List (List ℚ)).getD ((0 + 2) + 1) [] :=
  ⟨(build_dataset_positions_amended [[(0:ℚ)], [1], [2], [3], [4]] 1 (some 0) 0 (by decide)).1,
   (build_dataset_positions_amended [[(0:ℚ)], [1], [2], [3], [4]] 1 (some 0) 0 (by decide)).2
     2 (by decide),
   ((build_dataset_positions_amended [[(0:ℚ)], [1], [2], [3], [4]] 1 none 0 (by decide)).2
     2 (by decide)).2.2⟩

/-- A Keras layer as added by `build_lstm` / `build_mlp` in
`pystockml/models.py`: only the structural attributes the builders set. -/
inductive KerasLayer where
  | lstmLayer (input_shape : Option (Nat × Nat)) (units : Nat) (return_sequences : Bool)
  | dropoutLayer (rate : ℚ)
  | denseLayer (units : Nat)
  | activationLayer (name : String)
deriving DecidableEq

/-- Embeds `build_lstm` from `pystockml/models.py`: the `layers < 2` guard
and the sequence of layers added to the `Sequential` model (compilation with
loss/optimizer strings is backend plumbing and not modelled). -/
def build_lstm (input_dim input_length output_dim : Nat) (dropout : ℚ)
    (hidden_size layers : Nat) : Except String (List KerasLayer) :=
  if layers < 2 then
    .error "LstmRegressor must have at least two layers."
  else
    .ok ([.lstmLayer (some (input_length, input_dim)) hidden_size true,
          .dropoutLayer dropout]
      ++ (List.range (layers - 2)).flatMap
          (fun _ => [.lstmLayer none hidden_size true, .dropoutLayer dropout])
      ++ [.lstmLayer none hidden_size false, .dropoutLayer dropout,
          .denseLayer output_dim, .activationLayer "linear"])

/-- The `return_sequences` flag of the last recurrent layer of a model, if
any recurrent layer is present. -/
def lastLstmReturnsSequences (ls : List KerasLayer) : Option Bool :=
  ls.foldl (fun acc l =>
    match l with
    | .lstmLayer _ _ rs => some rs
    | _ => acc) none

/-- C7: `build_lstm` fails with the invalid-configuration error for every
`layers < 2` (in particular `layers = 0` and `layers = 1`), never silently
correcting the topology, and succeeds for `layers = 2` with a model whose
final recurrent layer has `return_sequences = false`. -/
theorem build_lstm_layers_validation (input_dim input_length output_dim : Nat)
    (dropout : ℚ) (hidden_size layers : Nat) :
    (layers < 2 →
      build_lstm input_dim input_length output_dim dropout hidden_size layers
        = .error "LstmRegressor must have at least two layers.")
    ∧ (layers = 2 →
      ∃ m, build_lstm input_dim input_length output_dim dropout hidden_size layers
          = .ok m
        ∧ lastLstmReturnsSequences m = some false) := by
  constructor
  · intro h
    simp [build_lstm, h]
  · intro h
    subst h
    refine ⟨[.lstmLayer (some (input_length, input_dim)) hidden_size true,
             .dropoutLayer dropout, .lstmLayer none hidden_size false,
             .dropoutLayer dropout, .denseLayer output_dim,
             .activationLayer "linear"], ?_, ?_⟩
    · simp [build_lstm]
    · rfl

/-- Witness for C7: `layers = 0` and `layers = 1` are rejected, `layers = 2`
is accepted with a non-sequence-returning final recurrent layer. -/
theorem build_lstm_layers_validation_witness :
    (build_lstm 1 1 1 (2/5) 32 0 = .error "LstmRegressor must have at least two layers.")
    ∧ (build_lstm 1 1 1 (2/5) 32 1 = .error "LstmRegressor must have at least two layers.")
    ∧ ∃ m, build_lstm 1 1 1 (2/5) 32 2 = .ok m ∧ lastLstmReturnsSequences m = some false :=
  ⟨(build_lstm_layers_validation 1 1 1 (2/5) 32 0).1 (by decide),
   (build_lstm_layers_validation 1 1 1 (2/5) 32 1).1 (by decide),
   (build_lstm_layers_validation 1 1 1 (2/5) 32 2).2 rfl⟩

/-- The module-level `COLUMNS` list of `pystockml/models.py`. -/
def COLUMNS_init : List String :=
  ["adj_close", "sma", "bandwidth", "%b", "momentum", "volatility",
   "adj_volume", "beta"]

/-- Embeds the effect of `load_data(path, benchmark_path)` on the global
`COLUMNS` list (the CSV loading and statistics augmentation are external
plumbing): when no benchmark path is given and `'beta'` is in `COLUMNS`,
the code executes `COLUMNS.pop()`, removing the last element in place; the
returned frame is projected onto the resulting list. -/
def load_data_columns (benchmark_path : Option String) (cols : List String) :
    List String :=
  match benchmark_path with
  | some _ => cols
  | none => if "beta" ∈ cols then cols.dropLast else cols

/-- C9: calling `load_data` with no benchmark while `'beta'` is in the
module-level `COLUMNS` list removes `'beta'` from the global list in place;
the change persists, so every later `load_data` call in the same process
(including ones that do supply a benchmark) sees the shortened schema. -/
theorem load_data_columns_beta_removed (bp : String) :
    "beta" ∈ COLUMNS_init
    ∧ load_data_columns none COLUMNS_init = COLUMNS_init.dropLast
    ∧ "beta" ∉ load_data_columns none COLUMNS_init
    ∧ load_data_columns (some bp) (load_data_columns none COLUMNS_init)
        = load_data_columns none COLUMNS_init
    ∧ load_data_columns none (load_data_columns none COLUMNS_init)
        = load_data_columns none COLUMNS_init := by
  refine ⟨by decide, by decide, by decide, rfl, by decide⟩

/-- The order hyperparameters `(n_ar_params, n_ar_diffs, n_ma_params)` of an
`ArimaRegressor`. -/
abbrev ArimaOrder : Type := Nat × Nat × Nat

/-- The mutable attributes of an `ArimaRegressor` instance from
`pystockml/models.py`.  `F` is the type of the fitted statsmodels handle
(`self.model_fit`); `y_train_ = []` together with `model_fit = none` models
a freshly constructed, never-fit instance (the Python attribute `y_train_`
does not exist before `fit`). -/
structure ArimaRegressorState (F : Type) where
  order : ArimaOrder
  y_train_ : List ℚ
  model_fit : Option F
deriving DecidableEq

/-- `ArimaRegressor.__init__` / `build_arima`: a fresh, unfit instance. -/
def arimaInit (F : Type) (order : ArimaOrder) : ArimaRegressorState F :=
  ⟨order, [], none⟩

/-- A Python argument that may be a scalar or a sequence (the `len(X)`
`TypeError` probe in `ArimaRegressor.predict` distinguishes the two). -/
inductive PyValue where
  | scalar (x : ℚ)
  | vector (xs : List ℚ)

/-- Errors `ArimaRegressor.predict` can raise before reaching the
statsmodels backend. -/
inductive PredictError where
  | notFitted
  | typeError
deriving DecidableEq

/-- `ArimaRegressor.fit(X, y)` with total fit oracle `fitT` standing for
`ARIMA(self.y_train_, order).fit(disp=0)`: stores `y` as the history and
refits.  (`X` is unused by the source.) -/
def arimaFit {F : Type} (fitT : ArimaOrder → List ℚ → F)
    (st : ArimaRegressorState F) (y : List ℚ) : ArimaRegressorState F :=
  { st with y_train_ := y, model_fit := some (fitT st.order y) }

/-- The `for x in X` refit loop of `ArimaRegressor.predict(X, refit=True)`:
forecast one step, append the observed `x`, refit from the whole updated
history.  `fore1 mf` stands for `self.model_fit.forecast()[0]`. -/
def arimaRefitLoop {F : Type} (fitT : ArimaOrder → List ℚ → F) (fore1 : F → ℚ)
    (order : ArimaOrder) (hist : List ℚ) (mf : F) :
    List ℚ → List ℚ × List ℚ × F
  | [] => ([], hist, mf)
  | x :: rest =>
    let yhat := fore1 mf
    let hist1 := hist ++ [x]
    let mf1 := fitT order hist1
    let r := arimaRefitLoop fitT fore1 order hist1 mf1 rest
    (yhat :: r.1, r.2)

/-- Embeds `ArimaRegressor.predict(X, refit)` over total oracles for the
statsmodels internals: `fitT` for refitting, `fore1 mf` for
`mf.forecast()[0]`, `foreN mf n` for `mf.forecast(n)[0]`.  The result pairs
the forecast values with the post-call instance state.  A scalar `X` with
`refit=False` reaches `len(X)` and raises `TypeError`; predictions are
returned as their value lists (the source returns shape `(n,)` or `(n, 1)`
arrays of the same values). -/
def arimaPredict {F : Type} (fitT : ArimaOrder → List ℚ → F) (fore1 : F → ℚ)
    (foreN : F → Nat → List ℚ) (st : ArimaRegressorState F) (X : PyValue)
    (refit : Bool) : Except PredictError (List ℚ × ArimaRegressorState F) :=
  match st.model_fit with
  | none => .error .notFitted
  | some mf =>
    if refit then
      match X with
      | .scalar x =>
        let yhat := fore1 mf
        let hist1 := st.y_train_ ++ [x]
        .ok ([yhat], { st with y_train_ := hist1, model_fit := some (fitT st.order hist1) })
      | .vector xs =>
        let r := arimaRefitLoop fitT fore1 st.order st.y_train_ mf xs
        .ok (r.1, { st with y_train_ := r.2.1, model_fit := some (r.2.2) })
    else
      match X with
      | .scalar _ => .error .typeError
      | .vector xs => .ok (foreN mf xs.length, st)

/-- C6: `predict` on a never-fit `ArimaRegressor` raises `NotFittedError`
for every input `X` and every value of `refit` — not some other crash and
not a silent default. -/
theorem arima_predict_not_fitted (F : Type) (fitT : ArimaOrder → List ℚ → F)
    (fore1 : F → ℚ) (foreN : F → Nat → List ℚ) (order : ArimaOrder)
    (X : PyValue) (refit : Bool) :
    arimaPredict fitT fore1 foreN (arimaInit F order) X refit
      = .error .notFitted := rfl

/-- C5: for a fitted `ArimaRegressor` with stored history `H` (all internal
refits succeeding, as modelled by the total oracles): three sequential
`predict(·, refit=True)` calls on `a`, `b`, `c` produce the same three
forecasts as one batch call on `[a, b, c]`; after either call sequence the
stored state (history and fitted handle) is the same, with history
`H ++ [a, b, c]`; and the `i`-th forecast is computed from the fit on
`H` extended by exactly the first `i` inputs, never input `i` or later. -/
theorem arima_refit_batch_eq_sequential (F : Type)
    (fitT : ArimaOrder → List ℚ → F) (fore1 : F → ℚ)
    (foreN : F → Nat → List ℚ) (order : ArimaOrder) (H : List ℚ) (a b c : ℚ) :
    arimaPredict fitT fore1 foreN (arimaFit fitT (arimaInit F order) H)
        (.vector [a, b, c]) true
      = .ok ([fore1 (fitT order H),
              fore1 (fitT order (H ++ [a])),
              fore1 (fitT order (H ++ [a, b]))],
             ⟨order, H ++ [a, b, c], some (fitT order (H ++ [a, b, c]))⟩)
    ∧ arimaPredict fitT fore1 foreN (arimaFit fitT (arimaInit F order) H)
        (.scalar a) true
      = .ok ([fore1 (fitT order H)],
             ⟨order, H ++ [a], some (fitT order (H ++ [a]))⟩)
    ∧ arimaPredict fitT fore1 foreN ⟨order, H ++ [a], some (fitT order (H ++ [a]))⟩
        (.scalar b) true
      = .ok ([fore1 (fitT order (H ++ [a]))],
             ⟨order, H ++ [a, b], some (fitT order (H ++ [a, b]))⟩)
    ∧ arimaPredict fitT fore1 foreN ⟨order, H ++ [a, b], some (fitT order (H ++ [a, b]))⟩
        (.scalar c) true
      = .ok ([fore1 (fitT order (H ++ [a, b]))],
             ⟨order, H ++ [a, b, c], some (fitT order (H ++ [a, b, c]))⟩) := by
  refine ⟨?_, ?_, ?_, ?_⟩ <;>
    simp [arimaPredict, arimaRefitLoop, arimaFit, arimaInit]

/-- The minimum of a list of rationals (0 for the empty list). -/
def listMinQ (l : List ℚ) : ℚ := l.foldl min (l.headD 0)

/-- The maximum of a list of rationals (0 for the empty list). -/
def listMaxQ (l : List ℚ) : ℚ := l.foldl max (l.headD 0)

/-- The fitted parameters of `MinMaxScaler(feature_range=(0, 1))` after
`fit` on a table: per column `(data_min_, data_max_)`. -/
def minmaxParams (values : List (List ℚ)) : List (ℚ × ℚ) :=
  (List.range (values.headD []).length).map (fun j =>
    (listMinQ (values.map (fun r => r.getD j 0)),
     listMaxQ (values.map (fun r => r.getD j 0))))

/-- `MinMaxScaler` with `feature_range=(0, 1)` applied to one entry:
`(x - min) / (max - min)`, the zero data range replaced by 1 as sklearn's
`handle_zeros_in_scale` does. -/
def minmaxScale (p : ℚ × ℚ) (x : ℚ) : ℚ :=
  (x - p.1) / (if p.2 - p.1 = 0 then 1 else p.2 - p.1)

/-- `MinMaxScaler.transform` on one row. -/
def minmaxTransform (ps : List (ℚ × ℚ)) (row : List ℚ) : List ℚ :=
  List.zipWith minmaxScale ps row

/-- Embeds `preprocess_data(df)` from `pystockml/models.py`:
`scaler.fit_transform` on the whole table, returning the scaled table and
the fitted scaler parameters. -/
def preprocess_data (values : List (List ℚ)) : List (List ℚ) × List (ℚ × ℚ) :=
  let ps := minmaxParams values
  (values.map (minmaxTransform ps), ps)

/-- Embeds the dataset-shaping core of `get_processed_dataset` from
`pystockml/models.py` on an already-loaded numeric table (CSV loading and
date filtering are external plumbing; the `lstm=False` path is modelled, so
no reshape):  `preprocess_data` on the full table, `build_dataset` with
`COLUMNS.index('adj_close') = 0` as price column, then the prefix/suffix
split at `int(train_size * X.shape[0])`. -/
def get_processed_dataset (values : List (List ℚ)) (train_size : ℚ)
    (shift lookback : Nat) :
    List (List (List ℚ)) × List (List ℚ) × List (List (List ℚ))
      × List (List ℚ) × List (ℚ × ℚ) :=
  let dfs := preprocess_data values
  let Xy := build_dataset dfs.1 shift (some 0) lookback
  let cut_point := (⌊train_size * (Xy.1.length : ℚ)⌋).toNat
  (Xy.1.take cut_point, Xy.2.take cut_point,
   Xy.1.drop cut_point, Xy.2.drop cut_point, dfs.2)

theorem get_processed_dataset_lengths (values : List (List ℚ))
    (train_size : ℚ) (shift lookback : Nat) :
    (get_processed_dataset values train_size shift lookback).1.length
      = min (⌊train_size * ((values.length - shift - shift - lookback : Nat) : ℚ)⌋).toNat
          (values.length - shift - shift - lookback)
    ∧ (get_processed_dataset values train_size shift lookback).2.1.length
      = min (⌊train_size * ((values.length - shift - shift - lookback : Nat) : ℚ)⌋).toNat
          (values.length - shift - shift - lookback)
    ∧ (get_processed_dataset values train_size shift lookback).2.2.1.length
      = (values.length - shift - shift - lookback)
        - (⌊train_size * ((values.length - shift - shift - lookback : Nat) : ℚ)⌋).toNat := by
  simp [get_processed_dataset, preprocess_data, build_dataset_fst_length,
        build_dataset_snd_length, List.length_take, List.length_drop]

/-- C4 counterexample: on the raw table `[[0],[0],[0],[8],[0]]` with
`train_size = 1/2`, `shift = 1`, `lookback = 0`, the returned scaler has
`(data_min_, data_max_) = (0, 8)`.  The training portion is a single
sample, whose context and target are built from raw rows 0–1; every entry
of those training-eligible rows is below `8`, so the fitted `data_max_ = 8`
comes from row 3, which feeds only the test-suffix target — and a scaler
fit on the training-eligible rows 0–1 would give `[(0, 0)]`, not
`[(0, 8)]`.  Hence the scaler is not fit only on training-eligible data. -/
theorem get_processed_dataset_scaler_counterexample :
    (get_processed_dataset [[0], [0], [0], [8], [0]] (1/2) 1 0).2.2.2.2 = [(0, 8)]
    ∧ (get_processed_dataset [[0], [0], [0], [8], [0]] (1/2) 1 0).1.length = 1
    ∧ (get_processed_dataset [[0], [0], [0], [8], [0]] (1/2) 1 0).2.1.length = 1
    ∧ (get_processed_dataset [[0], [0], [0], [8], [0]] (1/2) 1 0).2.2.1.length = 2
    ∧ (∀ row ∈ pySlice ([[0], [0], [0], [8], [0]] : List (List ℚ)) 0 2,
        ∀ x ∈ row, x < 8)
    ∧ minmaxParams (pySlice ([[0], [0], [0], [8], [0]] : List (List ℚ)) 0 2)
        ≠ [(0, 8)] := by
  have hfl : (⌊(1/2 : ℚ) * ((3 : Nat) : ℚ)⌋).toNat = 1 := by
    have h3 : ⌊(1/2 : ℚ) * ((3 : Nat) : ℚ)⌋ = 1 := by
      rw [Int.floor_eq_iff] <;> norm_num
    rw [h3]
    rfl
  have hlen := get_processed_dataset_lengths [[0], [0], [0], [8], [0]] (1/2) 1 0
  have h5 : (([[0], [0], [0], [8], [0]] : List (List ℚ)).length - 1 - 1 - 0) = 3 := by
    decide
  rw [h5] at hlen
  rw [hfl] at hlen
  refine ⟨by decide, ?_, ?_, ?_, by decide, by decide⟩
  · rw [hlen.1]; omega
  · rw [hlen.2.1]; omega
  · rw [hlen.2.2]

/-- C4 amended: `get_processed_dataset` does split `(X, y)` contiguously
into a prefix of length `int(train_size * n_samples)` and the remaining
suffix, and it applies one scaler identically to all rows — but that scaler
is fit on the entire raw table (`preprocess_data` runs before the split),
including the rows that end up only in the test suffix, not merely on
training-eligible data. -/
theorem get_processed_dataset_split_scaler (values : List (List ℚ))
    (train_size : ℚ) (shift lookback : Nat) :
    (get_processed_dataset values train_size shift lookback).1
        ++ (get_processed_dataset values train_size shift lookback).2.2.1
      = (build_dataset (values.map (minmaxTransform (minmaxParams values)))
          shift (some 0) lookback).1
    ∧ (get_processed_dataset values train_size shift lookback).2.1
        ++ (get_processed_dataset values train_size shift lookback).2.2.2.1
      = (build_dataset (values.map (minmaxTransform (minmaxParams values)))
          shift (some 0) lookback).2
    ∧ (get_processed_dataset values train_size shift lookback).1.length
      = min (⌊train_size * ((build_dataset (values.map (minmaxTransform (minmaxParams values)))
            shift (some 0) lookback).1.length : ℚ)⌋).toNat
          (build_dataset (values.map (minmaxTransform (minmaxParams values)))
            shift (some 0) lookback).1.length
    ∧ (get_processed_dataset values train_size shift lookback).2.2.2.2
      = minmaxParams values := by
  refine ⟨?_, ?_, ?_, rfl⟩
  · simp [get_processed_dataset, preprocess_data, List.take_append_drop]
  · simp [get_processed_dataset, preprocess_data, List.take_append_drop]
  · simp [get_processed_dataset, preprocess_data, List.length_take]

/-- Mean squared error `mse(yhat, y)` for equal-length nonempty inputs
(the guards are enforced at the call site, mirroring sklearn's input
validation). -/
def mseQ (yhat y : List ℚ) : ℚ :=
  (List.zipWith (fun a b => (a - b) ^ 2) yhat y).sum / (yhat.length : ℚ)

/-- Numpy fancy indexing plus column extraction `arr[index][:, 0]` used by
`grid_search_arima` on the `y` table. -/
def col0At (y : List (List ℚ)) (idx : List Nat) : List ℚ :=
  idx.map (fun i => (y.getD i []).getD 0 0)

/-- One `grid_search_arima` fold body for one configuration, over oracles
for the statsmodels internals: `fitO cfg hist` stands for
`ARIMA(hist, order=cfg).fit(disp=0)` (`none` = the fit raised), and
`foreO f n` for `f.forecast(n)[0]` (`none` = the forecast raised).

Mirrors the `try` block of the source: `arima.fit(X_train[:, 0],
y_train[:, 0])` first sets `y_train_` (so it is updated even when the
internal fit then raises, in which case `model_fit` keeps its previous
value and the fold is skipped), then `arima.predict(X_test[:, 0])` with
`refit=False` forecasts `len(X_test)` steps, then
`score = mse(arima_yhat, y_test[:, 0])` (sklearn raises on mismatched or
empty inputs).  Any raise yields score `none`: the exception is caught and
the fold contributes nothing. -/
def arimaFoldEval {F : Type} (fitO : ArimaOrder → List ℚ → Option F)
    (foreO : F → Nat → Option (List ℚ)) (y : List (List ℚ))
    (st : ArimaRegressorState F) (fold : List Nat × List Nat) :
    ArimaRegressorState F × Option ℚ :=
  let ytr := col0At y fold.1
  let yte := col0At y fold.2
  match fitO st.order ytr with
  | none => ({ st with y_train_ := ytr }, none)
  | some f =>
    let st1 : ArimaRegressorState F := { st with y_train_ := ytr, model_fit := some f }
    match foreO f fold.2.length with
    | none => (st1, none)
    | some yhat =>
      if yhat.length = yte.length ∧ yte.length ≠ 0 then (st1, some (mseQ yhat yte))
      else (st1, none)

/-- The score a given (configuration, fold) pair contributes, independent
of the threaded instance state (the internal refit starts from scratch on
the fold's training slice). -/
def pairScore {F : Type} (fitO : ArimaOrder → List ℚ → Option F)
    (foreO : F → Nat → Option (List ℚ)) (y : List (List ℚ))
    (cfg : ArimaOrder) (fold : List Nat × List Nat) : Option ℚ :=
  match fitO cfg (col0At y fold.1) with
  | none => none
  | some f =>
    match foreO f fold.2.length with
    | none => none
    | some yhat =>
      if yhat.length = (col0At y fold.2).length ∧ (col0At y fold.2).length ≠ 0
      then some (mseQ yhat (col0At y fold.2))
      else none

/-- `score < best_score` with `best_score` initialised to `float('inf')`
(represented by `none`). -/
def ltBest (s : ℚ) (best : Option ℚ) : Bool :=
  match best with
  | none => true
  | some b => decide (s < b)

/-- One fold iteration of the `grid_search_arima` inner loop: the
accumulator is `(best_score, hit, arima)` where `hit` records whether
`best_model = arima` was executed for the current configuration's instance
(Python's `best_model` is an alias of the mutable `arima` object, so the
returned model carries the instance's final state). -/
def runConfigStep {F : Type} (fitO : ArimaOrder → List ℚ → Option F)
    (foreO : F → Nat → Option (List ℚ)) (y : List (List ℚ))
    (acc : Option ℚ × Bool × ArimaRegressorState F) (fold : List Nat × List Nat) :
    Option ℚ × Bool × ArimaRegressorState F :=
  let r := arimaFoldEval fitO foreO y acc.2.2 fold
  match r.2 with
  | none => (acc.1, acc.2.1, r.1)
  | some s => if ltBest s acc.1 then (some s, true, r.1) else (acc.1, acc.2.1, r.1)

/-- The `(p, d, m)` enumeration order of the triple nested loops of
`grid_search_arima`. -/
def configList (params diffs ma_params : List Nat) : List ArimaOrder :=
  params.flatMap (fun p => diffs.flatMap (fun d => ma_params.map (fun m => (p, d, m))))

/-- Embeds `grid_search_arima(X, y, params, diffs, ma_params, cv)` from
`pystockml/models.py` (the `refit=False` path; the optional final
`best_model.fit(X, y)` under `refit=True` is not modelled).  Returns
`(best_score, best_configuration, best_model)`; `best_model` is the final
state of the mutable instance of the last configuration that improved the
best score, matching the Python aliasing of `best_model = arima`.  `X` is
passed but its values never influence the result (only `len(X_test)`,
which equals the fold's test-index count, is used). -/
def grid_search_arima {F : Type} (fitO : ArimaOrder → List ℚ → Option F)
    (foreO : F → Nat → Option (List ℚ)) (X y : List (List ℚ))
    (params diffs ma_params : List Nat) (cv : List (List Nat × List Nat)) :
    Option ℚ × Option ArimaOrder × Option (ArimaRegressorState F) :=
  (configList params diffs ma_params).foldl
    (fun acc cfg =>
      let r := cv.foldl (runConfigStep fitO foreO y) (acc.1, false, arimaInit F cfg)
      if r.2.1 then (r.1, some cfg, some r.2.2) else (r.1, acc.2.1, acc.2.2))
    (none, none, none)

/-- The sweep order of (configuration, fold) pairs. -/
def allPairs (params diffs ma_params : List Nat) (cv : List (List Nat × List Nat)) :
    List (ArimaOrder × (List Nat × List Nat)) :=
  (configList params diffs ma_params).flatMap (fun c => cv.map (fun f => (c, f)))

/-- The successfully evaluated (configuration, score) outcomes, in sweep
order: pairs whose evaluation raised are dropped. -/
def successScores {F : Type} (fitO : ArimaOrder → List ℚ → Option F)
    (foreO : F → Nat → Option (List ℚ)) (y : List (List ℚ))
    (params diffs ma_params : List Nat) (cv : List (List Nat × List Nat)) :
    List (ArimaOrder × ℚ) :=
  (allPairs params diffs ma_params cv).filterMap
    (fun p => (pairScore fitO foreO y p.1 p.2).map (fun s => (p.1, s)))

/-- Running strict-minimum selection over optional scores (skipping
failures), tracking the best configuration. -/
def selectStep (acc : Option ℚ × Option ArimaOrder) (p : ArimaOrder × Option ℚ) :
    Option ℚ × Option ArimaOrder :=
  match p.2 with
  | none => acc
  | some s => if ltBest s acc.1 then (some s, some p.1) else acc

/-- Running strict-minimum selection over successful scores only. -/
def succStep (acc : Option ℚ × Option ArimaOrder) (p : ArimaOrder × ℚ) :
    Option ℚ × Option ArimaOrder :=
  if ltBest p.2 acc.1 then (some p.2, some p.1) else acc

theorem arimaFoldEval_snd {F : Type} (fitO : ArimaOrder → List ℚ → Option F)
    (foreO : F → Nat → Option (List ℚ)) (y : List (List ℚ))
    (st : ArimaRegressorState F) (fold : List Nat × List Nat) :
    (arimaFoldEval fitO foreO y st fold).2 = pairScore fitO foreO y st.order fold := by
  simp only [arimaFoldEval, pairScore]
  cases hf : fitO st.order (col0At y fold.1) with
  | none => rfl
  | some f =>
    dsimp only
    cases hn : foreO f fold.2.length with
    | none => rfl
    | some yhat =>
      dsimp only
      by_cases h : yhat.length = (col0At y fold.2).length ∧ (col0At y fold.2).length ≠ 0
      · rw [if_pos h, if_pos h]
      · rw [if_neg h, if_neg h]

theorem arimaFoldEval_fst_order {F : Type} (fitO : ArimaOrder → List ℚ → Option F)
    (foreO : F → Nat → Option (List ℚ)) (y : List (List ℚ))
    (st : ArimaRegressorState F) (fold : List Nat × List Nat) :
    (arimaFoldEval fitO foreO y st fold).1.order = st.order := by
  simp only [arimaFoldEval]
  cases hf : fitO st.order (col0At y fold.1) with
  | none => rfl
  | some f =>
    dsimp only
    cases hn : foreO f fold.2.length with
    | none => rfl
    | some yhat =>
      dsimp only
      by_cases h : yhat.length = (col0At y fold.2).length ∧ (col0At y fold.2).length ≠ 0
      · rw [if_pos h]
      · rw [if_neg h]

theorem arimaFoldEval_fst_model_fit {F : Type} (fitO : ArimaOrder → List ℚ → Option F)
    (foreO : F → Nat → Option (List ℚ)) (y : List (List ℚ))
    (st : ArimaRegressorState F) (fold : List Nat × List Nat) :
    (arimaFoldEval fitO foreO y st fold).1.model_fit
      = match fitO st.order (col0At y fold.1) with
        | none => st.model_fit
        | some f => some f := by
  simp only [arimaFoldEval]
  cases hf : fitO st.order (col0At y fold.1) with
  | none => rfl
  | some f =>
    dsimp only
    cases hn : foreO f fold.2.length with
    | none => rfl
    | some yhat =>
      dsimp only
      by_cases h : yhat.length = (col0At y fold.2).length ∧ (col0At y fold.2).length ≠ 0
      · rw [if_pos h]
      · rw [if_neg h]

/-- The single mutable instance of one configuration threaded through every
fold of `cv`, starting from the freshly constructed `build_arima` object. -/
def threadFolds {F : Type} (fitO : ArimaOrder → List ℚ → Option F)
    (foreO : F → Nat → Option (List ℚ)) (y : List (List ℚ))
    (cv : List (List Nat × List Nat)) (cfg : ArimaOrder) : ArimaRegressorState F :=
  cv.foldl (fun s f => (arimaFoldEval fitO foreO y s f).1) (arimaInit F cfg)

/-- The fitted handle produced by the last fold of `cv` on which the
internal fit for configuration `cfg` succeeds (`none` if it never does). -/
def lastSuccessfulFit {F : Type} (fitO : ArimaOrder → List ℚ → Option F)
    (y : List (List ℚ)) (cfg : ArimaOrder) (cv : List (List Nat × List Nat)) :
    Option F :=
  cv.foldl (fun acc f =>
    match fitO cfg (col0At y f.1) with
    | some v => some v
    | none => acc) none

theorem foldl_arimaFoldEval_order {F : Type} (fitO : ArimaOrder → List ℚ → Option F)
    (foreO : F → Nat → Option (List ℚ)) (y : List (List ℚ)) :
    ∀ (cv : List (List Nat × List Nat)) (st : ArimaRegressorState F),
      (cv.foldl (fun s f => (arimaFoldEval fitO foreO y s f).1) st).order = st.order := by
  intro cv
  induction cv with
  | nil => intro st; rfl
  | cons f rest ih =>
    intro st
    rw [List.foldl_cons, ih, arimaFoldEval_fst_order]

theorem foldl_arimaFoldEval_model_fit {F : Type} (fitO : ArimaOrder → List ℚ → Option F)
    (foreO : F → Nat → Option (List ℚ)) (y : List (List ℚ)) (cfg : ArimaOrder) :
    ∀ (cv : List (List Nat × List Nat)) (st : ArimaRegressorState F),
      st.order = cfg →
      (cv.foldl (fun s f => (arimaFoldEval fitO foreO y s f).1) st).model_fit
        = cv.foldl (fun acc f =>
            match fitO cfg (col0At y f.1) with
            | some v => some v
            | none => acc) st.model_fit := by
  intro cv
  induction cv with
  | nil => intro st _; rfl
  | cons f rest ih =>
    intro st hord
    rw [List.foldl_cons, List.foldl_cons,
        ih _ (by rw [arimaFoldEval_fst_order, hord]),
        arimaFoldEval_fst_model_fit, hord]
    cases fitO cfg (col0At y f.1) <;> rfl

theorem threadFolds_order {F : Type} (fitO : ArimaOrder → List ℚ → Option F)
    (foreO : F → Nat → Option (List ℚ)) (y : List (List ℚ))
    (cv : List (List Nat × List Nat)) (cfg : ArimaOrder) :
    (threadFolds fitO foreO y cv cfg).order = cfg :=
  foldl_arimaFoldEval_order fitO foreO y cv (arimaInit F cfg)

theorem threadFolds_model_fit {F : Type} (fitO : ArimaOrder → List ℚ → Option F)
    (foreO : F → Nat → Option (List ℚ)) (y : List (List ℚ))
    (cv : List (List Nat × List Nat)) (cfg : ArimaOrder) :
    (threadFolds fitO foreO y cv cfg).model_fit = lastSuccessfulFit fitO y cfg cv :=
  foldl_arimaFoldEval_model_fit fitO foreO y cfg cv (arimaInit F cfg) rfl

theorem runConfig_select {F : Type} (fitO : ArimaOrder → List ℚ → Option F)
    (foreO : F → Nat → Option (List ℚ)) (y : List (List ℚ)) (cfg : ArimaOrder) :
    ∀ (cv : List (List Nat × List Nat)) (bs : Option ℚ) (bc : Option ArimaOrder)
      (hit : Bool) (st : ArimaRegressorState F), st.order = cfg →
      (((cv.foldl (runConfigStep fitO foreO y) (bs, hit, st)).1,
        (if (cv.foldl (runConfigStep fitO foreO y) (bs, hit, st)).2.1 = true
         then some cfg else bc))
        = List.foldl selectStep (bs, if hit = true then some cfg else bc)
            (cv.map (fun f => (cfg, pairScore fitO foreO y cfg f))))
      ∧ (cv.foldl (runConfigStep fitO foreO y) (bs, hit, st)).2.2
        = cv.foldl (fun s f => (arimaFoldEval fitO foreO y s f).1) st := by
  intro cv
  induction cv with
  | nil =>
    intro bs bc hit st hord
    simp
  | cons f rest ih =>
    intro bs bc hit st hord
    have hscore : (arimaFoldEval fitO foreO y st f).2 = pairScore fitO foreO y cfg f := by
      rw [arimaFoldEval_snd, hord]
    have hord1 : (arimaFoldEval fitO foreO y st f).1.order = cfg := by
      rw [arimaFoldEval_fst_order, hord]
    simp only [List.foldl_cons, List.map_cons]
    cases hc : pairScore fitO foreO y cfg f with
    | none =>
      rw [hc] at hscore
      have hstep : runConfigStep fitO foreO y (bs, hit, st) f
          = (bs, hit, (arimaFoldEval fitO foreO y st f).1) := by
        simp [runConfigStep, hscore]
      simp only [hstep]
      have hsel : selectStep (bs, if hit = true then some cfg else bc) (cfg, none)
          = (bs, if hit = true then some cfg else bc) := rfl
      rw [hsel]
      exact ih bs bc hit _ hord1
    | some s =>
      rw [hc] at hscore
      by_cases hlt : ltBest s bs = true
      · have hstep : runConfigStep fitO foreO y (bs, hit, st) f
            = (some s, true, (arimaFoldEval fitO foreO y st f).1) := by
          simp [runConfigStep, hscore, hlt]
        simp only [hstep]
        have hsel : selectStep (bs, if hit = true then some cfg else bc) (cfg, some s)
            = (some s, some cfg) := by
          simp [selectStep, hlt]
        rw [hsel]
        have := ih (some s) bc true _ hord1
        simpa using this
      · have hstep : runConfigStep fitO foreO y (bs, hit, st) f
            = (bs, hit, (arimaFoldEval fitO foreO y st f).1) := by
          simp [runConfigStep, hscore, hlt]
        simp only [hstep]
        have hsel : selectStep (bs, if hit = true then some cfg else bc) (cfg, some s)
            = (bs, if hit = true then some cfg else bc) := by
          simp [selectStep, hlt]
        rw [hsel]
        exact ih bs bc hit _ hord1

theorem grid_aux_select {F : Type} (fitO : ArimaOrder → List ℚ → Option F)
    (foreO : F → Nat → Option (List ℚ)) (y : List (List ℚ))
    (cv : List (List Nat × List Nat)) :
    ∀ (cfgs : List ArimaOrder) (bs : Option ℚ) (bc : Option ArimaOrder)
      (bm : Option (ArimaRegressorState F)),
      ((cfgs.foldl (fun acc cfg =>
          let r := cv.foldl (runConfigStep fitO foreO y) (acc.1, false, arimaInit F cfg)
          if r.2.1 then (r.1, some cfg, some r.2.2) else (r.1, acc.2.1, acc.2.2))
        (bs, bc, bm)).1,
       (cfgs.foldl (fun acc cfg =>
          let r := cv.foldl (runConfigStep fitO foreO y) (acc.1, false, arimaInit F cfg)
          if r.2.1 then (r.1, some cfg, some r.2.2) else (r.1, acc.2.1, acc.2.2))
        (bs, bc, bm)).2.1)
        = List.foldl selectStep (bs, bc)
            (cfgs.flatMap (fun c => cv.map (fun f => (c, pairScore fitO foreO y c f)))) := by
  intro cfgs
  induction cfgs with
  | nil =>
    intro bs bc bm
    simp
  | cons c rest ih =>
    intro bs bc bm
    simp only [List.foldl_cons, List.flatMap_cons, List.foldl_append]
    have h := runConfig_select fitO foreO y c cv bs bc false (arimaInit F c) rfl
    have h1 := h.1
    simp only [Bool.false_eq_true, if_false] at h1
    cases hr : (cv.foldl (runConfigStep fitO foreO y) (bs, false, arimaInit F c)).2.1 with
    | true =>
      rw [hr] at h1
      simp only [if_true] at h1
      simp only [hr, if_true]
      rw [← h1]
      exact ih _ _ _
    | false =>
      rw [hr] at h1
      simp only [Bool.false_eq_true, if_false] at h1
      simp only [hr, Bool.false_eq_true, if_false]
      rw [← h1]
      exact ih _ _ _

/-- The sweep result's score/configuration components equal a flat
strict-minimum selection over the per-pair scores in sweep order. -/
theorem grid_search_select {F : Type} (fitO : ArimaOrder → List ℚ → Option F)
    (foreO : F → Nat → Option (List ℚ)) (X y : List (List ℚ))
    (params diffs ma_params : List Nat) (cv : List (List Nat × List Nat)) :
    ((grid_search_arima fitO foreO X y params diffs ma_params cv).1,
     (grid_search_arima fitO foreO X y params diffs ma_params cv).2.1)
      = List.foldl selectStep (none, none)
          ((configList params diffs ma_params).flatMap
            (fun c => cv.map (fun f => (c, pairScore fitO foreO y c f)))) := by
  exact grid_aux_select fitO foreO y cv (configList params diffs ma_params) none none none

theorem foldl_selectStep_eq_succStep :
    ∀ (l : List (ArimaOrder × Option ℚ)) (acc : Option ℚ × Option ArimaOrder),
      List.foldl selectStep acc l
        = List.foldl succStep acc
            (l.filterMap (fun p => p.2.map (fun s => (p.1, s)))) := by
  intro l
  induction l with
  | nil => intro acc; rfl
  | cons p rest ih =>
    intro acc
    cases hp : p.2 with
    | none =>
      simp only [List.foldl_cons, List.filterMap_cons, hp, Option.map_none]
      have : selectStep acc p = acc := by simp [selectStep, hp]
      rw [this]
      exact ih acc
    | some s =>
      have hsel : selectStep acc p = succStep acc (p.1, s) := by
        simp [selectStep, succStep, hp]
      have hfm : (p :: rest).filterMap (fun q => q.2.map (fun s2 => (q.1, s2)))
          = (p.1, s) :: rest.filterMap (fun q => q.2.map (fun s2 => (q.1, s2))) := by
        simp [List.filterMap_cons, hp]
      rw [hfm, List.foldl_cons, List.foldl_cons, hsel]
      exact ih _

theorem succ_foldl_some :
    ∀ (l : List (ArimaOrder × ℚ)) (acc : Option ℚ × Option ArimaOrder) (b : ℚ),
      acc.1 = some b →
      ∃ b2, (List.foldl succStep acc l).1 = some b2 ∧ b2 ≤ b := by
  intro l
  induction l with
  | nil => intro acc b h; exact ⟨b, h, le_refl b⟩
  | cons p rest ih =>
    intro acc b h
    by_cases hlt : ltBest p.2 acc.1 = true
    · have hstep : succStep acc p = (some p.2, some p.1) := by simp [succStep, hlt]
      rw [List.foldl_cons, hstep]
      obtain ⟨b2, h1, h2⟩ := ih (some p.2, some p.1) p.2 rfl
      have hpb : p.2 < b := by
        rw [h] at hlt
        simpa [ltBest] using hlt
      exact ⟨b2, h1, le_trans h2 (le_of_lt hpb)⟩
    · have hstep : succStep acc p = acc := by simp [succStep, hlt]
      rw [List.foldl_cons, hstep]
      exact ih acc b h

theorem succ_foldl_le :
    ∀ (l : List (ArimaOrder × ℚ)) (acc : Option ℚ × Option ArimaOrder)
      (c : ArimaOrder) (s : ℚ), (c, s) ∈ l →
      ∃ b, (List.foldl succStep acc l).1 = some b ∧ b ≤ s := by
  intro l
  induction l with
  | nil => intro acc c s h; cases h
  | cons p rest ih =>
    intro acc c s h
    rw [List.foldl_cons]
    rcases List.mem_cons.1 h with heq | hmem
    · subst heq
      by_cases hlt : ltBest s acc.1 = true
      · have hstep : succStep acc (c, s) = (some s, some c) := by simp [succStep, hlt]
        rw [hstep]
        obtain ⟨b2, h1, h2⟩ := succ_foldl_some rest (some s, some c) s rfl
        exact ⟨b2, h1, h2⟩
      · have hstep : succStep acc (c, s) = acc := by simp [succStep, hlt]
        rw [hstep]
        cases hacc : acc.1 with
        | none => exact absurd (by simp [ltBest, hacc]) hlt
        | some b0 =>
          have hb0 : b0 ≤ s := by
            rw [hacc] at hlt
            simp only [ltBest, decide_eq_true_eq] at hlt
            exact le_of_not_lt hlt
          obtain ⟨b2, h1, h2⟩ := succ_foldl_some rest acc b0 hacc
          exact ⟨b2, h1, le_trans h2 hb0⟩
    · exact ih _ c s hmem

theorem succ_foldl_attained :
    ∀ (l : List (ArimaOrder × ℚ)) (acc : Option ℚ × Option ArimaOrder)
      (b : ℚ) (bc : Option ArimaOrder),
      List.foldl succStep acc l = (some b, bc) →
      acc = (some b, bc) ∨ ∃ c, bc = some c ∧ (c, b) ∈ l := by
  intro l
  induction l with
  | nil => intro acc b bc h; exact Or.inl h
  | cons p rest ih =>
    intro acc b bc h
    rw [List.foldl_cons] at h
    rcases ih _ b bc h with hacc | ⟨c, hc, hmem⟩
    · by_cases hlt : ltBest p.2 acc.1 = true
      · have hstep : succStep acc p = (some p.2, some p.1) := by simp [succStep, hlt]
        rw [hstep] at hacc
        have h1 : some p.2 = some b := congrArg Prod.fst hacc
        have h2 : some p.1 = bc := congrArg Prod.snd hacc
        refine Or.inr ⟨p.1, h2.symm, ?_⟩
        have : p.2 = b := Option.some.inj h1
        rw [← this]
        exact List.mem_cons_self p rest
      · have hstep : succStep acc p = acc := by simp [succStep, hlt]
        rw [hstep] at hacc
        exact Or.inl hacc
    · exact Or.inr ⟨c, hc, List.mem_cons_of_mem _ hmem⟩

/-- The score/configuration outcome as a fold over exactly the successful
evaluations, in sweep order. -/
theorem grid_search_succ {F : Type} (fitO : ArimaOrder → List ℚ → Option F)
    (foreO : F → Nat → Option (List ℚ)) (X y : List (List ℚ))
    (params diffs ma_params : List Nat) (cv : List (List Nat × List Nat)) :
    ((grid_search_arima fitO foreO X y params diffs ma_params cv).1,
     (grid_search_arima fitO foreO X y params diffs ma_params cv).2.1)
      = List.foldl succStep (none, none)
          (successScores fitO foreO y params diffs ma_params cv) := by
  rw [grid_search_select fitO foreO X y params diffs ma_params cv,
      foldl_selectStep_eq_succStep]
  congr 1
  simp only [successScores, allPairs, List.filterMap_flatMap, List.filterMap_map]
  rfl

/-- C8: an exception while evaluating one configuration on one fold is
caught, the pair contributes nothing to scoring, and the sweep continues
over the remaining folds and configurations: the score/configuration
outcome is exactly the running strict-minimum over the successful
evaluations in sweep order (failed pairs removed), and any second run whose
successful evaluations agree — however differently its other pairs fail —
produces the same outcome; no failing candidate aborts the search. -/
theorem grid_search_arima_failures_skipped (F G : Type)
    (fitO : ArimaOrder → List ℚ → Option F) (foreO : F → Nat → Option (List ℚ))
    (fitO2 : ArimaOrder → List ℚ → Option G) (foreO2 : G → Nat → Option (List ℚ))
    (X X2 y : List (List ℚ)) (params diffs ma_params : List Nat)
    (cv : List (List Nat × List Nat)) :
    ((grid_search_arima fitO foreO X y params diffs ma_params cv).1,
     (grid_search_arima fitO foreO X y params diffs ma_params cv).2.1)
      = List.foldl succStep (none, none)
          (successScores fitO foreO y params diffs ma_params cv)
    ∧ (successScores fitO2 foreO2 y params diffs ma_params cv
          = successScores fitO foreO y params diffs ma_params cv →
        ((grid_search_arima fitO2 foreO2 X2 y params diffs ma_params cv).1,
         (grid_search_arima fitO2 foreO2 X2 y params diffs ma_params cv).2.1)
          = ((grid_search_arima fitO foreO X y params diffs ma_params cv).1,
             (grid_search_arima fitO foreO X y params diffs ma_params cv).2.1)) := by
  refine ⟨grid_search_succ fitO foreO X y params diffs ma_params cv, ?_⟩
  intro h
  rw [grid_search_succ fitO2 foreO2 X2 y params diffs ma_params cv, h,
      grid_search_succ fitO foreO X y params diffs ma_params cv]

/-- C3 amended: in `grid_search_arima` the returned `best_score` is the
minimum single (configuration, fold) error over all successfully evaluated
pairs — per-fold errors are compared directly against the running best, not
aggregated into a per-configuration mean — and the returned configuration
is one whose some single fold attains that minimum. -/
theorem grid_search_arima_min_fold_score (F : Type)
    (fitO : ArimaOrder → List ℚ → Option F) (foreO : F → Nat → Option (List ℚ))
    (X y : List (List ℚ)) (params diffs ma_params : List Nat)
    (cv : List (List Nat × List Nat)) :
    (∀ p ∈ allPairs params diffs ma_params cv, ∀ s,
        pairScore fitO foreO y p.1 p.2 = some s →
        ∃ b, (grid_search_arima fitO foreO X y params diffs ma_params cv).1 = some b
          ∧ b ≤ s)
    ∧ (∀ b, (grid_search_arima fitO foreO X y params diffs ma_params cv).1 = some b →
        ∃ c, (grid_search_arima fitO foreO X y params diffs ma_params cv).2.1 = some c
          ∧ (c, b) ∈ successScores fitO foreO y params diffs ma_params cv) := by
  have hpair := grid_search_succ fitO foreO X y params diffs ma_params cv
  constructor
  · intro p hp s hs
    have hmem : (p.1, s) ∈ successScores fitO foreO y params diffs ma_params cv := by
      apply List.mem_filterMap.2
      exact ⟨p, hp, by rw [hs]; rfl⟩
    obtain ⟨b, h1, h2⟩ := succ_foldl_le _ (none, none) p.1 s hmem
    refine ⟨b, ?_, h2⟩
    have := congrArg Prod.fst hpair
    simpa using this.trans h1
  · intro b hb
    have hfold : List.foldl succStep (none, none)
        (successScores fitO foreO y params diffs ma_params cv)
        = (some b, (grid_search_arima fitO foreO X y params diffs ma_params cv).2.1) := by
      rw [← hpair, hb]
    rcases succ_foldl_attained _ (none, none) b _ hfold with hinit | ⟨c, hc, hmem⟩
    · exact absurd (congrArg Prod.fst hinit) (by simp)
    · exact ⟨c, hc, hmem⟩

def bestModelInv {F : Type} (fitO : ArimaOrder → List ℚ → Option F)
    (foreO : F → Nat → Option (List ℚ)) (y : List (List ℚ))
    (cv : List (List Nat × List Nat)) (bc : Option ArimaOrder)
    (bm : Option (ArimaRegressorState F)) : Prop :=
  (bc = none ∧ bm = none)
  ∨ ∃ c, bc = some c ∧ bm = some (threadFolds fitO foreO y cv c)

theorem grid_aux_model {F : Type} (fitO : ArimaOrder → List ℚ → Option F)
    (foreO : F → Nat → Option (List ℚ)) (y : List (List ℚ))
    (cv : List (List Nat × List Nat)) :
    ∀ (cfgs : List ArimaOrder) (bs : Option ℚ) (bc : Option ArimaOrder)
      (bm : Option (ArimaRegressorState F)),
      bestModelInv fitO foreO y cv bc bm →
      bestModelInv fitO foreO y cv
        ((cfgs.foldl (fun acc cfg =>
            let r := cv.foldl (runConfigStep fitO foreO y) (acc.1, false, arimaInit F cfg)
            if r.2.1 then (r.1, some cfg, some r.2.2) else (r.1, acc.2.1, acc.2.2))
          (bs, bc, bm)).2.1)
        ((cfgs.foldl (fun acc cfg =>
            let r := cv.foldl (runConfigStep fitO foreO y) (acc.1, false, arimaInit F cfg)
            if r.2.1 then (r.1, some cfg, some r.2.2) else (r.1, acc.2.1, acc.2.2))
          (bs, bc, bm)).2.2) := by
  intro cfgs
  induction cfgs with
  | nil => intro bs bc bm h; exact h
  | cons c rest ih =>
    intro bs bc bm h
    rw [List.foldl_cons]
    have hstate : (cv.foldl (runConfigStep fitO foreO y) (bs, false, arimaInit F c)).2.2
        = threadFolds fitO foreO y cv c :=
      (runConfig_select fitO foreO y c cv bs bc false (arimaInit F c) rfl).2
    cases hr : (cv.foldl (runConfigStep fitO foreO y) (bs, false, arimaInit F c)).2.1 with
    | true =>
      simp only [hr, if_true, hstate]
      exact ih _ _ _ (Or.inr ⟨c, rfl, rfl⟩)
    | false =>
      simp only [hr, Bool.false_eq_true, if_false]
      exact ih _ _ _ h

theorem lastSuccessfulFit_eq_evalFit {F : Type} (fitO : ArimaOrder → List ℚ → Option F)
    (foreO : F → Nat → Option (List ℚ)) (y : List (List ℚ)) (cfg : ArimaOrder) :
    ∀ (cv : List (List Nat × List Nat)) (acc : Option F),
      (∀ f ∈ cv, (fitO cfg (col0At y f.1)).isSome →
        (pairScore fitO foreO y cfg f).isSome) →
      cv.foldl (fun acc f =>
          match fitO cfg (col0At y f.1) with
          | some v => some v
          | none => acc) acc
        = cv.foldl (fun acc f =>
            if (pairScore fitO foreO y cfg f).isSome
            then fitO cfg (col0At y f.1) else acc) acc := by
  intro cv
  induction cv with
  | nil => intro acc _; rfl
  | cons f rest ih =>
    intro acc h
    rw [List.foldl_cons, List.foldl_cons]
    have hrest : ∀ g ∈ rest, (fitO cfg (col0At y g.1)).isSome →
        (pairScore fitO foreO y cfg g).isSome := by
      intro g hg
      exact h g (List.mem_cons_of_mem _ hg)
    cases hfit : fitO cfg (col0At y f.1) with
    | none =>
      have hps : pairScore fitO foreO y cfg f = none := by
        simp [pairScore, hfit]
      rw [hps]
      simp only [Option.isSome_none, Bool.false_eq_true, if_false]
      exact ih acc hrest
    | some v =>
      have hps : (pairScore fitO foreO y cfg f).isSome := by
        apply h f (List.mem_cons_self f rest)
        rw [hfit]
        rfl
      rw [if_pos hps]
      exact ih (some v) hrest

/-- C10: `grid_search_arima` creates one `ArimaRegressor` per `(p, d, m)`
configuration and threads that same mutable instance through every fold, so
(on the `refit=False` path) the returned `best_model` is the winning
configuration's instance in its state after the final fold: its fitted
handle comes from the last fold on which the internal fit succeeded — under
the premise that a fold whose fit succeeds is successfully evaluated, the
last successfully evaluated fold — which need not be the fold whose error
equals the returned `best_score` (see the witness for a concrete case). -/
theorem grid_search_arima_best_model_state (F : Type)
    (fitO : ArimaOrder → List ℚ → Option F) (foreO : F → Nat → Option (List ℚ))
    (X y : List (List ℚ)) (params diffs ma_params : List Nat)
    (cv : List (List Nat × List Nat)) (cfg : ArimaOrder)
    (bm : ArimaRegressorState F)
    (hcfg : (grid_search_arima fitO foreO X y params diffs ma_params cv).2.1 = some cfg)
    (hbm : (grid_search_arima fitO foreO X y params diffs ma_params cv).2.2 = some bm) :
    bm = threadFolds fitO foreO y cv cfg
    ∧ bm.model_fit = lastSuccessfulFit fitO y cfg cv
    ∧ ((∀ f ∈ cv, (fitO cfg (col0At y f.1)).isSome →
          (pairScore fitO foreO y cfg f).isSome) →
        bm.model_fit = cv.foldl (fun acc f =>
          if (pairScore fitO foreO y cfg f).isSome
          then fitO cfg (col0At y f.1) else acc) none) := by
  have hinv := grid_aux_model fitO foreO y cv (configList params diffs ma_params)
      none none none (Or.inl ⟨rfl, rfl⟩)
  rcases hinv with ⟨h1, _⟩ | ⟨c, h1, h2⟩
  · rw [grid_search_arima] at hcfg
    rw [h1] at hcfg
    cases hcfg
  · rw [grid_search_arima] at hcfg hbm
    rw [h1] at hcfg
    rw [h2] at hbm
    have hceq : c = cfg := Option.some.inj hcfg
    subst hceq
    have hbm2 : bm = threadFolds fitO foreO y cv c := (Option.some.inj hbm).symm
    refine ⟨hbm2, ?_, ?_⟩
    · rw [hbm2, threadFolds_model_fit]
    · intro h
      rw [hbm2, threadFolds_model_fit]
      exact lastSuccessfulFit_eq_evalFit fitO foreO y c cv none h

/-- The per-configuration mean of the successfully evaluated fold errors —
the aggregate the claim says `grid_search_arima` compares. -/
def meanScore {F : Type} (fitO : ArimaOrder → List ℚ → Option F)
    (foreO : F → Nat → Option (List ℚ)) (y : List (List ℚ))
    (cv : List (List Nat × List Nat)) (cfg : ArimaOrder) : ℚ :=
  let ss := cv.filterMap (fun f => pairScore fitO foreO y cfg f)
  ss.sum / (ss.length : ℚ)

/-- A concrete fit oracle: the fitted handle is the one-step forecast value
the model will produce (configurations with `p = 0` forecast `0` after a
1-point history and `3` after a longer one; other configurations always
forecast `1`). -/
def exFitO : ArimaOrder → List ℚ → Option ℚ :=
  fun cfg hist => some (if cfg.1 = 0 then (if hist.length = 1 then 0 else 3) else 1)

/-- A concrete forecast oracle: `n` copies of the handle's value. -/
def exForeO : ℚ → Nat → Option (List ℚ) :=
  fun f n => some (List.replicate n f)

def exX : List (List ℚ) := [[0], [0], [0]]

def exY : List (List ℚ) := [[0], [0], [0]]

/-- Two expanding-window folds: train `[0]` / test `[1]`, then train
`[0, 1]` / test `[2]`. -/
def exCv : List (List Nat × List Nat) := [([0], [1]), ([0, 1], [2])]

theorem exGrid_eval :
    grid_search_arima exFitO exForeO exX exY [0, 1] [0] [0] exCv
      = (some 0, some (0, 0, 0), some ⟨(0, 0, 0), [0, 0], some 3⟩) := by
  norm_num [grid_search_arima, configList, runConfigStep, arimaFoldEval,
            arimaInit, col0At, mseQ, ltBest, exFitO, exForeO, exY, exCv]

theorem exMean_eval :
    meanScore exFitO exForeO exY exCv (0, 0, 0) = 9 / 2
    ∧ meanScore exFitO exForeO exY exCv (1, 0, 0) = 1 := by
  constructor <;>
    norm_num [meanScore, pairScore, col0At, mseQ, exFitO, exForeO, exY, exCv,
              List.filterMap_cons, List.filterMap_nil]

/-- C3 counterexample: with the concrete oracles, configuration `(0,0,0)`
has fold errors `0` and `9` (mean `9/2`) and configuration `(1,0,0)` has
fold errors `1` and `1` (mean `1`).  The sweep returns best score `0` and
configuration `(0,0,0)`: the winner does not have the minimal mean error
(`(1,0,0)`'s mean is smaller), and the returned `best_score` is not the
winner's mean — no per-configuration averaging happens. -/
theorem grid_search_arima_mean_counterexample :
    (grid_search_arima exFitO exForeO exX exY [0, 1] [0] [0] exCv).1 = some 0
    ∧ (grid_search_arima exFitO exForeO exX exY [0, 1] [0] [0] exCv).2.1
        = some (0, 0, 0)
    ∧ meanScore exFitO exForeO exY exCv (1, 0, 0)
        < meanScore exFitO exForeO exY exCv (0, 0, 0)
    ∧ ¬ (grid_search_arima exFitO exForeO exX exY [0, 1] [0] [0] exCv).1
          = some (meanScore exFitO exForeO exY exCv (0, 0, 0)) := by
  refine ⟨?_, ?_, ?_, ?_⟩
  · rw [exGrid_eval]
  · rw [exGrid_eval]
  · rw [exMean_eval.1, exMean_eval.2]
    norm_num
  · rw [exGrid_eval, exMean_eval.1]
    norm_num

/-- Witness for C10 at the concrete oracles: the returned `best_model` is
the winning configuration's instance threaded through both folds; its
fitted handle (`some 3`) is the fit from the second (last successfully
evaluated) fold, while the returned best score is attained by the first
fold, whose fit handle is `some 0 ≠ some 3`. -/
theorem grid_search_arima_best_model_state_witness :
    ((⟨(0, 0, 0), [0, 0], some 3⟩ : ArimaRegressorState ℚ)
        = threadFolds exFitO exForeO exY exCv (0, 0, 0)
      ∧ (⟨(0, 0, 0), [0, 0], some 3⟩ : ArimaRegressorState ℚ).model_fit
          = lastSuccessfulFit exFitO exY (0, 0, 0) exCv
      ∧ ((∀ f ∈ exCv, (exFitO (0, 0, 0) (col0At exY f.1)).isSome →
            (pairScore exFitO exForeO exY (0, 0, 0) f).isSome) →
          (⟨(0, 0, 0), [0, 0], some 3⟩ : ArimaRegressorState ℚ).model_fit
            = exCv.foldl (fun acc f =>
                if (pairScore exFitO exForeO exY (0, 0, 0) f).isSome
                then exFitO (0, 0, 0) (col0At exY f.1) else acc) none))
    ∧ (grid_search_arima exFitO exForeO exX exY [0, 1] [0] [0] exCv).1
        = pairScore exFitO exForeO exY (0, 0, 0) ([0], [1])
    ∧ lastSuccessfulFit exFitO exY (0, 0, 0) exCv = some 3
    ∧ exFitO (0, 0, 0) (col0At exY ([0], [1]).1) = some 0
    ∧ ¬ (3 : ℚ) = 0 := by
  have h := grid_search_arima_best_model_state ℚ exFitO exForeO exX exY
      [0, 1] [0] [0] exCv (0, 0, 0) ⟨(0, 0, 0), [0, 0], some 3⟩
      (by rw [exGrid_eval]) (by rw [exGrid_eval])
  refine ⟨h, ?_, ?_, ?_, by norm_num⟩
  · rw [exGrid_eval]
    norm_num [pairScore, col0At, mseQ, exFitO, exForeO, exY]
  · norm_num [lastSuccessfulFit, col0At, exFitO, exY, exCv]
  · norm_num [exFitO, col0At, exY]

/-- Witness for the amended C3 at the concrete oracles: the pair
`((0,0,0), fold 2)` evaluates successfully with error `9`, so the returned
best score exists and is at most `9` (it is in fact `0`). -/
theorem grid_search_arima_min_fold_score_witness :
    ((0, 0, 0), ([0], [1])) ∈ allPairs [0, 1] [0] [0] exCv
    ∧ ∃ b, (grid_search_arima exFitO exForeO exX exY [0, 1] [0] [0] exCv).1 = some b
        ∧ b ≤ 0 := by
  refine ⟨by decide, ?_⟩
  apply (grid_search_arima_min_fold_score ℚ exFitO exForeO exX exY
      [0, 1] [0] [0] exCv).1 ((0, 0, 0), ([0], [1])) (by decide) 0
  norm_num [pairScore, col0At, mseQ, exFitO, exForeO, exY]
